import Mathlib

/-!
Shallow embedding of the Conversation Aggregation & Approval Pipeline of
src/server.js, with theorems settling the spec claims about it.
-/

namespace LineBot

/-- Row of the main log sheet, mirroring the column layout
[timestamp, userId, displayName, userText, draft, status, rowId]
that processBatchedMessages appends and the approval endpoints read. -/
structure LogRow where
  timestamp : String
  userId : String
  displayName : String
  userText : String
  draft : String
  status : String
  rowId : String
  deriving DecidableEq

/-- Embedding of findRowById: scan the data rows in order and return the
first row whose rowId column matches, together with its position.  The
source returns the 1-based sheet index plus a header offset; we use the
0-based list index, which updateStatus below consumes consistently. -/
def findRowById (id : String) : List LogRow → Option (Nat × LogRow)
  | [] => none
  | r :: rs =>
    if r.rowId = id then some (0, r)
    else (findRowById id rs).map (fun p => (p.1 + 1, p.2))

/-- Embedding of updateStatus: overwrite the status column of the row at
the given index, leaving every other cell unchanged. -/
def updateStatus : List LogRow → Nat → String → List LogRow
  | [], _, _ => []
  | r :: rs, 0, st => { r with status := st } :: rs
  | r :: rs, i + 1, st => r :: updateStatus rs i st

/-- Outcome reported by the /approve handler. -/
inductive ApproveOutcome where
  | forbidden
  | notFound
  | alreadySent
  | sentOk
  | sendFailed
  deriving DecidableEq

/-- Result of one /approve call: the HTTP-level outcome, the store after
the call, and the list of pushMessage deliveries attempted (userId and
payload, the draft truncated to 4000 characters as in the source). -/
structure ApproveResult where
  outcome : ApproveOutcome
  rows : List LogRow
  sends : List (String × String)
  deriving DecidableEq

/-- Embedding of the /approve handler.  The query parameters id and token
are optional (a missing parameter is none, mirroring undefined); the
configured secret APPROVE_TOKEN is likewise optional.  The guard mirrors
the source line by line: a falsy id (missing or empty) or a token not
identical to the secret yields Forbidden before the store is touched;
an unknown id yields NotFound; a row already SENT returns success with
no send; otherwise pushMessage is attempted with the truncated draft and,
only if it succeeds, the status cell is set to SENT. -/
def approve (secret : Option String) (sendOk : Bool) (id : Option String)
    (token : Option String) (rows : List LogRow) : ApproveResult :=
  if id = none ∨ id = some "" ∨ token ≠ secret then
    ⟨ApproveOutcome.forbidden, rows, []⟩
  else
    match findRowById (id.getD "") rows with
    | none => ⟨ApproveOutcome.notFound, rows, []⟩
    | some (i, r) =>
      if r.status = "SENT" then ⟨ApproveOutcome.alreadySent, rows, []⟩
      else if sendOk then
        ⟨ApproveOutcome.sentOk, updateStatus rows i "SENT", [(r.userId, r.draft.take 4000)]⟩
      else
        ⟨ApproveOutcome.sendFailed, rows, [(r.userId, r.draft.take 4000)]⟩

/-- Outcome reported by the /reject handler. -/
inductive RejectOutcome where
  | forbidden
  | notFound
  | rejectedOk
  deriving DecidableEq

/-- Result of one /reject call. -/
structure RejectResult where
  outcome : RejectOutcome
  rows : List LogRow
  deriving DecidableEq

/-- Embedding of the /reject handler: same guard and lookup as /approve,
then the status cell of the found row is set to REJECTED with no check of
its current value. -/
def reject (secret : Option String) (id : Option String)
    (token : Option String) (rows : List LogRow) : RejectResult :=
  if id = none ∨ id = some "" ∨ token ≠ secret then
    ⟨RejectOutcome.forbidden, rows⟩
  else
    match findRowById (id.getD "") rows with
    | none => ⟨RejectOutcome.notFound, rows⟩
    | some (i, _) => ⟨RejectOutcome.rejectedOk, updateStatus rows i "REJECTED"⟩

theorem findRowById_updateStatus (id : String) (st : String) :
    ∀ (rows : List LogRow) (i : Nat) (r : LogRow),
      findRowById id rows = some (i, r) →
      findRowById id (updateStatus rows i st) = some (i, { r with status := st })
  | [], i, r, h => by simp [findRowById] at h
  | a :: rs, i, r, h => by
    by_cases ha : a.rowId = id
    · simp [findRowById, ha] at h
      obtain ⟨hi, hr⟩ := h
      subst hi; subst hr
      simp [updateStatus, findRowById, ha]
    · rw [findRowById, if_neg ha] at h
      cases hfr : findRowById id rs with
      | none => rw [hfr] at h; simp at h
      | some p =>
        obtain ⟨j, s⟩ := p
        rw [hfr] at h
        simp at h
        obtain ⟨hj, hs⟩ := h
        subst hs
        rw [← hj]
        simpa [updateStatus, findRowById, ha] using
          findRowById_updateStatus id st rs j s hfr

theorem approve_guard_pass (s idv : String) (sendOk : Bool) (rows : List LogRow)
    (hid : idv ≠ "") :
    approve (some s) sendOk (some idv) (some s) rows =
      (match findRowById idv rows with
        | none => ⟨ApproveOutcome.notFound, rows, []⟩
        | some (i, r) =>
          if r.status = "SENT" then ⟨ApproveOutcome.alreadySent, rows, []⟩
          else if sendOk then
            ⟨ApproveOutcome.sentOk, updateStatus rows i "SENT", [(r.userId, r.draft.take 4000)]⟩
          else
            ⟨ApproveOutcome.sendFailed, rows, [(r.userId, r.draft.take 4000)]⟩) := by
  rw [approve, if_neg]
  · simp
  · rintro (h | h | h)
    · exact Option.noConfusion h
    · exact hid (Option.some.injEq .. ▸ h)
    · exact h rfl

theorem reject_guard_pass (s idv : String) (rows : List LogRow)
    (hid : idv ≠ "") :
    reject (some s) (some idv) (some s) rows =
      (match findRowById idv rows with
        | none => ⟨RejectOutcome.notFound, rows⟩
        | some (i, _) => ⟨RejectOutcome.rejectedOk, updateStatus rows i "REJECTED"⟩) := by
  rw [reject, if_neg]
  · simp
  · rintro (h | h | h)
    · exact Option.noConfusion h
    · exact hid (Option.some.injEq .. ▸ h)
    · exact h rfl

/-- C1: calling approve twice on the same record id with a valid token,
starting from a PENDING record, performs exactly one SendMessage
invocation and leaves the record SENT; the second call, finding status
already SENT, reports success without re-sending and without error. -/
theorem approve_twice_idempotent (s idv : String) (rows : List LogRow)
    (i : Nat) (r : LogRow)
    (hid : idv ≠ "")
    (hfound : findRowById idv rows = some (i, r))
    (hpending : r.status = "PENDING") :
    (approve (some s) true (some idv) (some s) rows).outcome = ApproveOutcome.sentOk ∧
    (approve (some s) true (some idv) (some s)
        (approve (some s) true (some idv) (some s) rows).rows).outcome =
      ApproveOutcome.alreadySent ∧
    (approve (some s) true (some idv) (some s) rows).sends.length +
      (approve (some s) true (some idv) (some s)
        (approve (some s) true (some idv) (some s) rows).rows).sends.length = 1 ∧
    findRowById idv
        (approve (some s) true (some idv) (some s)
          (approve (some s) true (some idv) (some s) rows).rows).rows =
      some (i, { r with status := "SENT" }) := by
  have hns : r.status ≠ "SENT" := by rw [hpending]; decide
  have h1 : approve (some s) true (some idv) (some s) rows =
      ⟨ApproveOutcome.sentOk, updateStatus rows i "SENT", [(r.userId, r.draft.take 4000)]⟩ := by
    rw [approve_guard_pass s idv true rows hid, hfound]
    simp [hns]
  have hfound2 : findRowById idv (updateStatus rows i "SENT") =
      some (i, { r with status := "SENT" }) :=
    findRowById_updateStatus idv "SENT" rows i r hfound
  have h2 : approve (some s) true (some idv) (some s) (updateStatus rows i "SENT") =
      ⟨ApproveOutcome.alreadySent, updateStatus rows i "SENT", []⟩ := by
    rw [approve_guard_pass s idv true _ hid, hfound2]
    simp
  rw [h1]
  simp only [h2, hfound2]
  simp

/-- Witness for C1 at a concrete one-row store. -/
theorem approve_twice_idempotent_witness :
    ("r1" : String) ≠ "" ∧
    findRowById "r1" [⟨"ts", "u1", "Alice", "hello", "Hi", "PENDING", "r1"⟩] =
      some (0, ⟨"ts", "u1", "Alice", "hello", "Hi", "PENDING", "r1"⟩) ∧
    (⟨"ts", "u1", "Alice", "hello", "Hi", "PENDING", "r1"⟩ : LogRow).status = "PENDING" ∧
    ((approve (some "tok") true (some "r1") (some "tok")
        [⟨"ts", "u1", "Alice", "hello", "Hi", "PENDING", "r1"⟩]).outcome =
      ApproveOutcome.sentOk ∧
    (approve (some "tok") true (some "r1") (some "tok")
        (approve (some "tok") true (some "r1") (some "tok")
          [⟨"ts", "u1", "Alice", "hello", "Hi", "PENDING", "r1"⟩]).rows).outcome =
      ApproveOutcome.alreadySent ∧
    (approve (some "tok") true (some "r1") (some "tok")
        [⟨"ts", "u1", "Alice", "hello", "Hi", "PENDING", "r1"⟩]).sends.length +
      (approve (some "tok") true (some "r1") (some "tok")
        (approve (some "tok") true (some "r1") (some "tok")
          [⟨"ts", "u1", "Alice", "hello", "Hi", "PENDING", "r1"⟩]).rows).sends.length = 1 ∧
    findRowById "r1"
        (approve (some "tok") true (some "r1") (some "tok")
          (approve (some "tok") true (some "r1") (some "tok")
            [⟨"ts", "u1", "Alice", "hello", "Hi", "PENDING", "r1"⟩]).rows).rows =
      some (0, ⟨"ts", "u1", "Alice", "hello", "Hi", "SENT", "r1"⟩)) :=
  ⟨by decide, by decide, rfl,
    approve_twice_idempotent "tok" "r1"
      [⟨"ts", "u1", "Alice", "hello", "Hi", "PENDING", "r1"⟩] 0
      ⟨"ts", "u1", "Alice", "hello", "Hi", "PENDING", "r1"⟩
      (by decide) (by decide) rfl⟩

/-- C2 counterexample: a record whose status is SENT is moved to REJECTED
by a single authorized reject call, so a sequence of approve and reject
calls can move a record from SENT to REJECTED. -/
theorem sent_to_rejected_counterexample :
    (⟨"ts", "u1", "Alice", "hello", "Hi", "SENT", "r1"⟩ : LogRow).status = "SENT" ∧
    (reject (some "tok") (some "r1") (some "tok")
        [⟨"ts", "u1", "Alice", "hello", "Hi", "SENT", "r1"⟩]).outcome =
      RejectOutcome.rejectedOk ∧
    (reject (some "tok") (some "r1") (some "tok")
        [⟨"ts", "u1", "Alice", "hello", "Hi", "SENT", "r1"⟩]).rows =
      [⟨"ts", "u1", "Alice", "hello", "Hi", "REJECTED", "r1"⟩] := by
  refine ⟨rfl, ?_, ?_⟩ <;> decide

/-- C2 (amended): approve never moves a record out of SENT (on a SENT
record it leaves the store unchanged), but reject is unguarded: an
authorized reject on a found record writes REJECTED over whatever the
current status is, so SENT to REJECTED is reachable. -/
theorem status_transition_characterization (s idv : String) (rows : List LogRow)
    (i : Nat) (r : LogRow)
    (hid : idv ≠ "")
    (hfound : findRowById idv rows = some (i, r)) :
    (r.status = "SENT" →
      (approve (some s) true (some idv) (some s) rows).rows = rows) ∧
    (reject (some s) (some idv) (some s) rows).outcome = RejectOutcome.rejectedOk ∧
    findRowById idv (reject (some s) (some idv) (some s) rows).rows =
      some (i, { r with status := "REJECTED" }) := by
  refine ⟨?_, ?_, ?_⟩
  · intro hsent
    rw [approve_guard_pass s idv true rows hid, hfound]
    simp [hsent]
  · rw [reject_guard_pass s idv rows hid, hfound]
  · rw [reject_guard_pass s idv rows hid, hfound]
    exact findRowById_updateStatus idv "REJECTED" rows i r hfound

/-- Witness for the amended C2 at a concrete one-row store holding a SENT
record. -/
theorem status_transition_characterization_witness :
    ("r1" : String) ≠ "" ∧
    findRowById "r1" [⟨"ts", "u1", "Alice", "hello", "Hi", "SENT", "r1"⟩] =
      some (0, ⟨"ts", "u1", "Alice", "hello", "Hi", "SENT", "r1"⟩) ∧
    (((⟨"ts", "u1", "Alice", "hello", "Hi", "SENT", "r1"⟩ : LogRow).status = "SENT" →
      (approve (some "tok") true (some "r1") (some "tok")
          [⟨"ts", "u1", "Alice", "hello", "Hi", "SENT", "r1"⟩]).rows =
        [⟨"ts", "u1", "Alice", "hello", "Hi", "SENT", "r1"⟩]) ∧
    (reject (some "tok") (some "r1") (some "tok")
        [⟨"ts", "u1", "Alice", "hello", "Hi", "SENT", "r1"⟩]).outcome =
      RejectOutcome.rejectedOk ∧
    findRowById "r1"
        (reject (some "tok") (some "r1") (some "tok")
          [⟨"ts", "u1", "Alice", "hello", "Hi", "SENT", "r1"⟩]).rows =
      some (0, ⟨"ts", "u1", "Alice", "hello", "Hi", "REJECTED", "r1"⟩)) :=
  ⟨by decide, by decide,
    status_transition_characterization "tok" "r1"
      [⟨"ts", "u1", "Alice", "hello", "Hi", "SENT", "r1"⟩] 0
      ⟨"ts", "u1", "Alice", "hello", "Hi", "SENT", "r1"⟩
      (by decide) (by decide)⟩

/-- C4: a missing token, or any token different from the configured
secret, makes both approve and reject report Forbidden, perform no send,
and leave the stored rows unchanged, for every record state. -/
theorem bad_token_forbidden (s : String) (tok : Option String) (idq : Option String)
    (sendOk : Bool) (rows : List LogRow)
    (htok : tok ≠ some s) :
    approve (some s) sendOk idq tok rows = ⟨ApproveOutcome.forbidden, rows, []⟩ ∧
    reject (some s) idq tok rows = ⟨RejectOutcome.forbidden, rows⟩ := by
  constructor
  · rw [approve, if_pos (Or.inr (Or.inr htok))]
  · rw [reject, if_pos (Or.inr (Or.inr htok))]

/-- Witness for C4: a wrong token on a PENDING record is Forbidden and
changes nothing. -/
theorem bad_token_forbidden_witness :
    (some "wrong" : Option String) ≠ some "tok" ∧
    (approve (some "tok") true (some "r1") (some "wrong")
        [⟨"ts", "u1", "Alice", "hello", "Hi", "PENDING", "r1"⟩] =
      ⟨ApproveOutcome.forbidden,
        [⟨"ts", "u1", "Alice", "hello", "Hi", "PENDING", "r1"⟩], []⟩ ∧
    reject (some "tok") (some "r1") (some "wrong")
        [⟨"ts", "u1", "Alice", "hello", "Hi", "PENDING", "r1"⟩] =
      ⟨RejectOutcome.forbidden,
        [⟨"ts", "u1", "Alice", "hello", "Hi", "PENDING", "r1"⟩]⟩) :=
  ⟨by decide,
    bad_token_forbidden "tok" (some "wrong") (some "r1") true
      [⟨"ts", "u1", "Alice", "hello", "Hi", "PENDING", "r1"⟩] (by decide)⟩

/-- C5: when the send capability fails during approve on a PENDING
record, the handler reports a server error, the stored rows are
unchanged (status remains PENDING), and a later retry of approve with a
working send succeeds and moves the record to SENT. -/
theorem send_failure_keeps_pending (s idv : String) (rows : List LogRow)
    (i : Nat) (r : LogRow)
    (hid : idv ≠ "")
    (hfound : findRowById idv rows = some (i, r))
    (hpending : r.status = "PENDING") :
    (approve (some s) false (some idv) (some s) rows).outcome =
      ApproveOutcome.sendFailed ∧
    (approve (some s) false (some idv) (some s) rows).rows = rows ∧
    (approve (some s) true (some idv) (some s)
        (approve (some s) false (some idv) (some s) rows).rows).outcome =
      ApproveOutcome.sentOk := by
  have hns : r.status ≠ "SENT" := by rw [hpending]; decide
  have h1 : approve (some s) false (some idv) (some s) rows =
      ⟨ApproveOutcome.sendFailed, rows, [(r.userId, r.draft.take 4000)]⟩ := by
    rw [approve_guard_pass s idv false rows hid, hfound]
    simp [hns]
  have h2 : approve (some s) true (some idv) (some s) rows =
      ⟨ApproveOutcome.sentOk, updateStatus rows i "SENT", [(r.userId, r.draft.take 4000)]⟩ := by
    rw [approve_guard_pass s idv true rows hid, hfound]
    simp [hns]
  rw [h1]
  simp [h2]

/-- Witness for C5 at a concrete one-row store. -/
theorem send_failure_keeps_pending_witness :
    ("r1" : String) ≠ "" ∧
    findRowById "r1" [⟨"ts", "u1", "Alice", "hello", "Hi", "PENDING", "r1"⟩] =
      some (0, ⟨"ts", "u1", "Alice", "hello", "Hi", "PENDING", "r1"⟩) ∧
    (⟨"ts", "u1", "Alice", "hello", "Hi", "PENDING", "r1"⟩ : LogRow).status = "PENDING" ∧
    ((approve (some "tok") false (some "r1") (some "tok")
        [⟨"ts", "u1", "Alice", "hello", "Hi", "PENDING", "r1"⟩]).outcome =
      ApproveOutcome.sendFailed ∧
    (approve (some "tok") false (some "r1") (some "tok")
        [⟨"ts", "u1", "Alice", "hello", "Hi", "PENDING", "r1"⟩]).rows =
      [⟨"ts", "u1", "Alice", "hello", "Hi", "PENDING", "r1"⟩] ∧
    (approve (some "tok") true (some "r1") (some "tok")
        (approve (some "tok") false (some "r1") (some "tok")
          [⟨"ts", "u1", "Alice", "hello", "Hi", "PENDING", "r1"⟩]).rows).outcome =
      ApproveOutcome.sentOk) :=
  ⟨by decide, by decide, rfl,
    send_failure_keeps_pending "tok" "r1"
      [⟨"ts", "u1", "Alice", "hello", "Hi", "PENDING", "r1"⟩] 0
      ⟨"ts", "u1", "Alice", "hello", "Hi", "PENDING", "r1"⟩
      (by decide) (by decide) rfl⟩

/-- One prior exchange as getAllPairs returns it: the user text and the
approved assistant reply. -/
structure Pair where
  user : String
  asst : String
  deriving DecidableEq

/-- Rendering of one exchange inside the recent-history block. -/
def renderPair (p : Pair) : String :=
  "U: " ++ p.user ++ "\nA: " ++ p.asst

/-- Last n elements of a list, as slice(-n) produces for n positive. -/
def takeLast (n : Nat) (l : List α) : List α :=
  l.drop (l.length - n)

/-- Trailing n characters of a string, as slice(-n) produces for n
positive; the source applies it only after the length check. -/
def strTakeRight (s : String) (n : Nat) : String :=
  ⟨s.data.drop (s.length - n)⟩

/-- Join of a list of strings with a separator, as Array.prototype.join
produces it. -/
def joinSep (sep : String) : List String → String
  | [] => ""
  | [a] => a
  | a :: b :: t => a ++ sep ++ joinSep sep (b :: t)

/-- The joined newest-first rendering built by formatRecentPairs before
its length check: the last maxPairs exchanges, reversed to newest-first
order, rendered and joined with the separator. -/
def newestFirstRendering (pairs : List Pair) (maxPairs : Nat) : String :=
  joinSep "\n---\n" ((takeLast maxPairs pairs).reverse.map renderPair)

/-- Embedding of formatRecentPairs: the newest-first rendering, truncated
to its trailing charLimit characters when it is longer than charLimit. -/
def formatRecentPairs (pairs : List Pair) (maxPairs charLimit : Nat) : String :=
  if charLimit < (newestFirstRendering pairs maxPairs).length then
    strTakeRight (newestFirstRendering pairs maxPairs) charLimit
  else newestFirstRendering pairs maxPairs

/-- Substring occurrence test on character lists, used to express that a
piece of rendered content survives truncation. -/
def hasSub (pat l : List Char) : Bool :=
  l.tails.any (fun t => decide (pat <+: t))

/-- The 120-character user text of the old exchanges in the C3
counterexample history. -/
def bigA : String := ⟨List.replicate 120 'a'⟩

/-- Concrete history for the C3 counterexample: nineteen old exchanges of
120 characters each followed by one newest exchange whose text ZZZ occurs
nowhere else. -/
def cexPairs : List Pair :=
  List.replicate 19 ⟨bigA, ""⟩ ++ [⟨"ZZZ", ""⟩]

/-- C3 (amended): the recent-history string never exceeds charLimit
characters, and it is always a trailing segment of the newest-first
rendering — so truncation keeps the tail of the newest-first text, which
is the oldest content of the recent window, not the newest. -/
theorem formatRecentPairs_length_le (pairs : List Pair) (maxPairs charLimit : Nat) :
    (formatRecentPairs pairs maxPairs charLimit).length ≤ charLimit ∧
    (formatRecentPairs pairs maxPairs charLimit).data <:+
      (newestFirstRendering pairs maxPairs).data := by
  unfold formatRecentPairs
  by_cases h : charLimit < (newestFirstRendering pairs maxPairs).length
  · rw [if_pos h]
    constructor
    · show (strTakeRight (newestFirstRendering pairs maxPairs) charLimit).length ≤ charLimit
      unfold strTakeRight
      show (List.drop _ _).length ≤ charLimit
      rw [List.length_drop]
      have : (newestFirstRendering pairs maxPairs).length =
          (newestFirstRendering pairs maxPairs).data.length := rfl
      omega
    · exact List.drop_suffix _ _
  · rw [if_neg h]
    exact ⟨Nat.le_of_not_lt h, List.suffix_refl _⟩

/-- C3 counterexample: on cexPairs truncation occurs (the full rendering
is longer than 2000 characters) yet the rendered newest exchange is
nowhere in the retained text: the trailing-2000 cut keeps the oldest
content of the window and drops the most recent exchange entirely. -/
theorem joinSep_cons₂ (sep a b : String) (t : List String) :
    joinSep sep (a :: b :: t) = a ++ sep ++ joinSep sep (b :: t) := rfl

theorem joinSep_cons_replicate_length (sep a b : String) (n : Nat) :
    (joinSep sep (a :: List.replicate n b)).length =
      a.length + n * (sep.length + b.length) := by
  induction n generalizing a with
  | zero => simp [joinSep]
  | succ m ih =>
    rw [List.replicate_succ, joinSep_cons₂, String.length_append, String.length_append, ih]
    ring

theorem not_mem_joinSep_cons_replicate (sep b : String) (n : Nat) (c : Char)
    (hs : c ∉ sep.data) (hb : c ∉ b.data) :
    ∀ a : String, c ∉ a.data → c ∉ (joinSep sep (a :: List.replicate n b)).data := by
  induction n with
  | zero =>
    intro a ha
    simpa [joinSep] using ha
  | succ m ih =>
    intro a ha
    rw [List.replicate_succ, joinSep_cons₂]
    simp only [String.data_append, List.mem_append, not_or]
    exact ⟨⟨ha, hs⟩, ih b hb⟩

theorem drop_append_sub {α : Type} (l₁ l₂ : List α) (n : Nat) (h : l₁.length ≤ n) :
    (l₁ ++ l₂).drop n = l₂.drop (n - l₁.length) := by
  induction l₁ generalizing n with
  | nil => simp
  | cons x xs ih =>
    cases n with
    | zero => simp at h
    | succ m =>
      simp only [List.cons_append, List.drop_succ_cons, List.length_cons]
      rw [ih m (by simpa using h), Nat.succ_sub_succ]

theorem hasSub_false_of_not_mem (pat l : List Char) (c : Char)
    (hc : c ∈ pat) (hl : c ∉ l) : hasSub pat l = false := by
  by_contra h
  rw [Bool.not_eq_false, hasSub, List.any_eq_true] at h
  obtain ⟨t, ht, hp⟩ := h
  rw [List.mem_tails] at ht
  have hp' := of_decide_eq_true hp
  exact hl (ht.subset (hp'.subset hc))

theorem cex_list_eq :
    (takeLast 20 cexPairs).reverse.map renderPair =
      renderPair ⟨"ZZZ", ""⟩ :: List.replicate 19 (renderPair ⟨bigA, ""⟩) := by
  have hlen : cexPairs.length = 20 := by simp [cexPairs]
  rw [takeLast, hlen]
  simp [cexPairs]

theorem bigA_length : bigA.length = 120 := by
  have h : bigA.length = (List.replicate 120 'a').length := rfl
  rw [h, List.length_replicate]

theorem render_old_length : (renderPair ⟨bigA, ""⟩).length = 127 := by
  rw [renderPair]
  simp only [String.length_append]
  rw [bigA_length]
  rfl

theorem cex_out_length : (newestFirstRendering cexPairs 20).length = 2518 := by
  rw [newestFirstRendering, cex_list_eq, joinSep_cons_replicate_length, render_old_length]
  rfl

theorem cex_truncated :
    formatRecentPairs cexPairs 20 2000 =
      strTakeRight (newestFirstRendering cexPairs 20) 2000 := by
  rw [formatRecentPairs, if_pos]
  rw [cex_out_length]
  norm_num

theorem not_mem_Z_renderOld : 'Z' ∉ (renderPair ⟨bigA, ""⟩).data := by
  rw [renderPair]
  simp only [String.data_append, List.mem_append, not_or]
  refine ⟨⟨⟨by decide, ?_⟩, by decide⟩, by decide⟩
  intro hmem
  have hZ : 'Z' ∈ List.replicate 120 'a' := hmem
  have := List.eq_of_mem_replicate hZ
  simp at this

theorem strTakeRight_data (s : String) (n : Nat) :
    (strTakeRight s n).data = s.data.drop (s.length - n) := rfl

theorem cex_not_mem_Z : 'Z' ∉ (formatRecentPairs cexPairs 20 2000).data := by
  rw [cex_truncated, strTakeRight_data, cex_out_length]
  have hdecomp : newestFirstRendering cexPairs 20 =
      (renderPair ⟨"ZZZ", ""⟩ ++ "\n---\n") ++
        joinSep "\n---\n" (renderPair ⟨bigA, ""⟩ :: List.replicate 18 (renderPair ⟨bigA, ""⟩)) := by
    rw [newestFirstRendering, cex_list_eq,
      show (19 : Nat) = 18 + 1 from rfl, List.replicate_succ, joinSep_cons₂,
      String.append_assoc]
  rw [hdecomp]
  have hpre : ((renderPair ⟨"ZZZ", ""⟩ ++ "\n---\n") : String).data.length = 15 := rfl
  rw [String.data_append, drop_append_sub _ _ _ (by rw [hpre]; norm_num), hpre]
  intro hmem
  exact not_mem_joinSep_cons_replicate "\n---\n" (renderPair ⟨bigA, ""⟩) 18 'Z'
    (by decide) not_mem_Z_renderOld (renderPair ⟨bigA, ""⟩) not_mem_Z_renderOld
    (List.drop_subset _ _ hmem)

/-- C3 counterexample: on cexPairs truncation occurs (the full rendering
is longer than 2000 characters) yet the rendered newest exchange is
nowhere in the retained text: the trailing-2000 cut keeps the oldest
content of the window and drops the most recent exchange entirely. -/
theorem format_truncation_drops_newest :
    2000 < (newestFirstRendering cexPairs 20).length ∧
    hasSub (renderPair ⟨"ZZZ", ""⟩).data (formatRecentPairs cexPairs 20 2000).data = false := by
  constructor
  · rw [cex_out_length]; norm_num
  · exact hasSub_false_of_not_mem _ _ 'Z' (by decide) cex_not_mem_Z

/-- Embedding of the tokenizer inside keywordOverlapScore: lower-case,
replace every character that is not a letter or digit by a space, split
on spaces and drop empty fragments.  Char.isAlphanum stands in for the
Unicode letter/digit classes of the source regex. -/
def tokenize (s : String) : List String :=
  ((String.mk (s.toLower.data.map (fun c => if c.isAlphanum then c else ' '))).split
    (fun c => c == ' ')).filter (fun t => t != "")

/-- Embedding of keywordOverlapScore: the number of distinct tokens of a
that also occur among the tokens of b. -/
def keywordOverlapScore (a b : String) : Nat :=
  ((tokenize a).dedup).countP (fun t => (tokenize b).contains t)

/-- Embedding of the readApprovedLogRows filter: rows with truthy
userText and draft columns and status SENT. -/
def isApprovedLogRow (r : LogRow) : Bool :=
  r.userText != "" && r.draft != "" && r.status == "SENT"

/-- Stable insertion step of a sort by strictly descending first
component: the new element passes over the elements with strictly larger
score and lands before the first element whose score is not larger, so
elements with equal scores keep their relative order. -/
def insertScoreDesc (x : Nat × α) : List (Nat × α) → List (Nat × α)
  | [] => [x]
  | y :: ys => if x.1 < y.1 then y :: insertScoreDesc x ys else x :: y :: ys

/-- Stable sort by descending first component, modelling the stable
Array.prototype.sort with comparator b.score - a.score. -/
def sortScoreDesc : List (Nat × α) → List (Nat × α)
  | [] => []
  | x :: xs => insertScoreDesc x (sortScoreDesc xs)

/-- Scored candidates of retrieveSimilarFromLogs: the approved rows in
corpus order, each annotated with its overlap score against the query
and its position in the candidate list. -/
def scoredCandidates (q : String) (rows : List LogRow) : List (Nat × Nat × LogRow) :=
  ((rows.filter isApprovedLogRow).enum).map
    (fun p => (keywordOverlapScore q p.2.userText, p.1, p.2))

/-- Ranked retrieval pipeline of retrieveSimilarFromLogs, keeping the
score and candidate position alongside each row: drop zero-score
candidates, sort by descending score (stable), take the first k. -/
def retrieveRanked (q : String) (k : Nat) (rows : List LogRow) :
    List (Nat × Nat × LogRow) :=
  (sortScoreDesc ((scoredCandidates q rows).filter (fun x => decide (0 < x.1)))).take k

/-- The rows actually returned by retrieveSimilarFromLogs before string
formatting. -/
def retrieveSimilarRanked (q : String) (k : Nat) (rows : List LogRow) : List LogRow :=
  (retrieveRanked q k rows).map (fun x => x.2.2)

/-- Ordering produced by the ranked retrieval: strictly larger score
first, and among equal scores the smaller original candidate position
first. -/
def RankRel (a b : Nat × Nat × γ) : Prop :=
  b.1 < a.1 ∨ (a.1 = b.1 ∧ a.2.1 < b.2.1)

theorem insertScoreDesc_perm (x : Nat × α) (l : List (Nat × α)) :
    List.Perm (insertScoreDesc x l) (x :: l) := by
  induction l with
  | nil => simp [insertScoreDesc]
  | cons y ys ih =>
    simp only [insertScoreDesc]
    by_cases h : x.1 < y.1
    · rw [if_pos h]
      exact (ih.cons y).trans (List.Perm.swap x y ys)
    · rw [if_neg h]

theorem sortScoreDesc_perm (l : List (Nat × α)) : List.Perm (sortScoreDesc l) l := by
  induction l with
  | nil => simp [sortScoreDesc]
  | cons x xs ih => exact (insertScoreDesc_perm x (sortScoreDesc xs)).trans (ih.cons x)

theorem insertScoreDesc_pairwise (x : Nat × Nat × γ) (l : List (Nat × Nat × γ))
    (hl : l.Pairwise RankRel) (hx : ∀ y ∈ l, x.2.1 < y.2.1) :
    (insertScoreDesc x l).Pairwise RankRel := by
  induction l with
  | nil => simp [insertScoreDesc]
  | cons y ys ih =>
    rw [List.pairwise_cons] at hl
    obtain ⟨hy, hys⟩ := hl
    simp only [insertScoreDesc]
    by_cases h : x.1 < y.1
    · rw [if_pos h]
      rw [List.pairwise_cons]
      refine ⟨?_, ih hys (fun z hz => hx z (List.mem_cons_of_mem _ hz))⟩
      intro z hz
      rcases List.mem_cons.mp ((insertScoreDesc_perm x ys).mem_iff.mp hz) with rfl | hz'
      · exact Or.inl h
      · exact hy z hz'
    · rw [if_neg h]
      have hyx : y.1 ≤ x.1 := Nat.le_of_not_lt h
      rw [List.pairwise_cons]
      refine ⟨?_, List.pairwise_cons.mpr ⟨hy, hys⟩⟩
      intro z hz
      rcases List.mem_cons.mp hz with rfl | hz'
      · rcases Nat.lt_or_ge z.1 x.1 with hlt | hge
        · exact Or.inl hlt
        · exact Or.inr ⟨Nat.le_antisymm hge hyx, hx z (List.mem_cons_self _ _)⟩
      · rcases hy z hz' with hlt | ⟨heq, _⟩
        · exact Or.inl (Nat.lt_of_lt_of_le hlt hyx)
        · rcases Nat.lt_or_ge z.1 x.1 with hlt2 | hge2
          · exact Or.inl hlt2
          · exact Or.inr ⟨Nat.le_antisymm hge2 (heq ▸ hyx),
              hx z (List.mem_cons_of_mem _ hz')⟩

theorem sortScoreDesc_pairwise (l : List (Nat × Nat × γ))
    (h : l.Pairwise (fun a b => a.2.1 < b.2.1)) :
    (sortScoreDesc l).Pairwise RankRel := by
  induction l with
  | nil => simp [sortScoreDesc]
  | cons x xs ih =>
    rw [List.pairwise_cons] at h
    obtain ⟨hx, hxs⟩ := h
    exact insertScoreDesc_pairwise x (sortScoreDesc xs) (ih hxs)
      (fun y hy => hx y ((sortScoreDesc_perm xs).mem_iff.mp hy))

theorem le_fst_of_mem_enumFrom {l : List α} :
    ∀ {n : Nat} {y : Nat × α}, y ∈ l.enumFrom n → n ≤ y.1 := by
  induction l with
  | nil => intro n y h; simp at h
  | cons x xs ih =>
    intro n y h
    rw [List.enumFrom_cons] at h
    rcases List.mem_cons.mp h with rfl | h
    · exact Nat.le_refl n
    · exact Nat.le_of_succ_le (ih h)

theorem pairwise_fst_lt_enumFrom (l : List α) :
    ∀ n : Nat, (l.enumFrom n).Pairwise (fun a b => a.1 < b.1) := by
  induction l with
  | nil => intro n; simp
  | cons x xs ih =>
    intro n
    rw [List.enumFrom_cons, List.pairwise_cons]
    exact ⟨fun y hy => Nat.lt_of_succ_le (le_fst_of_mem_enumFrom hy), ih (n + 1)⟩

theorem scoredCandidates_pairwise (q : String) (rows : List LogRow) :
    (scoredCandidates q rows).Pairwise (fun a b => a.2.1 < b.2.1) := by
  unfold scoredCandidates
  exact List.Pairwise.map _ (fun a b h => h) (pairwise_fst_lt_enumFrom _ 0)

/-- C6: for every query, corpus and k, the ranked retrieval returns at
most k entries, every returned entry has overlap score strictly greater
than 0, the entries are ordered by non-increasing score, ties keep the
original candidate order (strictly larger score first, equal scores in
increasing candidate position), and the returned rows are exactly the
rows of the ranked entries. -/
theorem retrieve_spec (q : String) (k : Nat) (rows : List LogRow) :
    (retrieveSimilarRanked q k rows).length ≤ k ∧
    (∀ x ∈ retrieveRanked q k rows, 0 < x.1) ∧
    (retrieveRanked q k rows).Pairwise (fun a b => b.1 ≤ a.1) ∧
    (retrieveRanked q k rows).Pairwise RankRel ∧
    retrieveSimilarRanked q k rows = (retrieveRanked q k rows).map (fun x => x.2.2) := by
  have hpwsort : (sortScoreDesc ((scoredCandidates q rows).filter
      (fun x => decide (0 < x.1)))).Pairwise RankRel :=
    sortScoreDesc_pairwise _ (List.Pairwise.filter _ (scoredCandidates_pairwise q rows))
  have hpw : (retrieveRanked q k rows).Pairwise RankRel :=
    List.Pairwise.sublist (List.take_sublist _ _) hpwsort
  refine ⟨?_, ?_, ?_, hpw, rfl⟩
  · rw [retrieveSimilarRanked, List.length_map, retrieveRanked, List.length_take]
    exact Nat.min_le_left _ _
  · intro x hx
    have hx' : x ∈ sortScoreDesc ((scoredCandidates q rows).filter
        (fun x => decide (0 < x.1))) := List.take_sublist _ _ |>.subset hx
    have hx'' := (sortScoreDesc_perm _).mem_iff.mp hx'
    exact of_decide_eq_true (List.mem_filter.mp hx'').2
  · exact hpw.imp (fun hab => by
      rcases hab with hlt | ⟨heq, _⟩
      · exact Nat.le_of_lt hlt
      · exact Nat.le_of_eq heq.symm)

/-- The fixed fallback draft returned when the generation response has no
usable content. -/
def draftFallback : String := "うまく返せなかった…もう一度教えてほしい。"

/-- Whitespace trimming at both ends, embedding the trim method applied
to the generated content. -/
def jsTrim (s : String) : String :=
  ⟨((s.data.dropWhile Char.isWhitespace).reverse.dropWhile Char.isWhitespace).reverse⟩

/-- Normalization of the generation response content applied by
generateDraftWithContext: take the content if present, trim it, and fall
back to the fixed string when it is missing or trims to empty. -/
def normalizeGenOutput (content : Option String) : String :=
  if jsTrim (content.getD "") = "" then draftFallback else jsTrim (content.getD "")

/-- Embedding of the tail of generateDraftWithContext: the call to the
text-generation capability and the handling of its result.  The argument
is the capability outcome: error models a thrown failure of the call,
ok carries the optional message content of a successful response.  The
source has no try/catch around this call, so the error case passes
through to the caller. -/
def generateDraftWithContext (gen : Except Unit (Option String)) : Except Unit String :=
  match gen with
  | Except.error e => Except.error e
  | Except.ok content => Except.ok (normalizeGenOutput content)

/-- C7 counterexample: when the text-generation capability fails (the
call throws), generateDraftWithContext propagates the error to its
caller instead of returning the fixed fallback string. -/
theorem generateDraft_propagates_failure :
    generateDraftWithContext (Except.error ()) = Except.error () ∧
    generateDraftWithContext (Except.error ()) ≠ Except.ok draftFallback := by
  constructor
  · rfl
  · intro h
    exact Except.noConfusion h

/-- C7 (amended): on a successful generation call, an absent or
empty-after-trim content yields the fixed fallback string and any other
content is returned trimmed, so a successful call never surfaces an
error; but a thrown generation failure propagates to the caller. -/
theorem generateDraft_fallback_cases (e : Unit) (s : String) :
    generateDraftWithContext (Except.error e) = Except.error e ∧
    generateDraftWithContext (Except.ok none) = Except.ok draftFallback ∧
    generateDraftWithContext (Except.ok (some s)) =
      Except.ok (if jsTrim s = "" then draftFallback else jsTrim s) := by
  refine ⟨rfl, ?_, ?_⟩
  · show Except.ok (normalizeGenOutput none) = Except.ok draftFallback
    rw [normalizeGenOutput]
    have h0 : jsTrim ((none : Option String).getD "") = "" := by decide
    rw [if_pos h0]
  · show Except.ok (normalizeGenOutput (some s)) = _
    rw [normalizeGenOutput]
    simp

/-- State of one user's debounce buffer: none when no buffer exists, or
the collected texts in arrival order together with the time at which the
armed flush timer fires. -/
def BufState := Option (List String × Nat)

/-- Embedding of the per-user debounce loop of bufferIncoming: process
the arrivals (time, text) in time order against the buffer state.  An
armed timer whose deadline has passed fires before the next arrival is
handled (flushing the buffer and deleting it); an arrival appends its
text, cancels the pending timer and re-arms it at arrival time plus the
window.  After the last arrival, a still-armed timer fires and flushes
the remaining buffer.  The result is the list of flushed batches. -/
def runArrivals (W : Nat) : List (Nat × String) → Option (List String × Nat) → List (List String)
  | [], none => []
  | [], some (buf, _) => [buf]
  | (t, x) :: rest, none => runArrivals W rest (some ([x], t + W))
  | (t, x) :: rest, some (buf, dl) =>
    if dl ≤ t then buf :: runArrivals W rest (some ([x], t + W))
    else runArrivals W rest (some (buf ++ [x], t + W))

/-- The batches flushed for one user given its arrivals, starting with no
buffer. -/
def flushBatches (W : Nat) (arrivals : List (Nat × String)) : List (List String) :=
  runArrivals W arrivals none

/-- The merged user text of one flushed batch, as processBatchedMessages
builds it: the texts joined with the visible separator. -/
def batchText (texts : List String) : String :=
  joinSep "\n——\n" texts

/-- The ConversationRecord appended by processBatchedMessages for one
flushed batch: merged user text, draft, and initial status PENDING. -/
def flushRecord (userId displayName : String) (texts : List String)
    (draft ts rowId : String) : LogRow :=
  ⟨ts, userId, displayName, batchText texts, draft, "PENDING", rowId⟩

theorem runArrivals_all_within (W : Nat) :
    ∀ (arrivals : List (Nat × String)) (buf : List String) (dl : Nat),
      List.Chain' (fun a b : Nat × String => a.1 ≤ b.1 ∧ b.1 < a.1 + W) arrivals →
      (∀ p ∈ arrivals.head?, p.1 < dl) →
      runArrivals W arrivals (some (buf, dl)) = [buf ++ arrivals.map Prod.snd] := by
  intro arrivals
  induction arrivals with
  | nil => intro buf dl _ _; simp [runArrivals]
  | cons a rest ih =>
    intro buf dl hchain hhead
    obtain ⟨t, x⟩ := a
    have ht : t < dl := hhead (t, x) (by simp)
    rw [runArrivals, if_neg (Nat.not_le_of_lt ht)]
    have hnext : ∀ p ∈ rest.head?, p.1 < t + W := by
      intro p hp
      exact (List.Chain'.rel_head? hchain hp).2
    rw [ih (buf ++ [x]) (t + W) hchain.tail hnext]
    simp

/-- C8: for every nonempty sequence of messages from one user in which
each arrival comes at or after the previous one and strictly less than
WINDOW_SEC after it, exactly one flush occurs and its batch contains all
the texts in arrival order; the record created for that batch carries the
texts joined with the visible separator as its userText and starts in
status PENDING. -/
theorem single_flush (W : Nat) (arrivals : List (Nat × String))
    (hne : arrivals ≠ [])
    (hchain : List.Chain' (fun a b : Nat × String => a.1 ≤ b.1 ∧ b.1 < a.1 + W) arrivals) :
    flushBatches W arrivals = [arrivals.map Prod.snd] ∧
    ∀ uid dn draft ts rid,
      (flushRecord uid dn (arrivals.map Prod.snd) draft ts rid).userText =
        batchText (arrivals.map Prod.snd) ∧
      (flushRecord uid dn (arrivals.map Prod.snd) draft ts rid).status = "PENDING" := by
  refine ⟨?_, fun uid dn draft ts rid => ⟨rfl, rfl⟩⟩
  match arrivals, hne with
  | (t, x) :: rest, _ =>
    rw [flushBatches, runArrivals]
    have hnext : ∀ p ∈ rest.head?, p.1 < t + W := by
      intro p hp
      exact (List.Chain'.rel_head? hchain hp).2
    rw [runArrivals_all_within W rest [x] (t + W) hchain.tail hnext]
    simp

/-- Witness for C8 at the spec's end-to-end scenario: two texts ten
seconds apart with a sixty-second window produce exactly one flush whose
merged text is text1, separator, text2. -/
theorem single_flush_witness :
    ([((0 : Nat), "text1"), ((10 : Nat), "text2")] : List (Nat × String)) ≠ [] ∧
    List.Chain' (fun a b : Nat × String => a.1 ≤ b.1 ∧ b.1 < a.1 + 60)
      [((0 : Nat), "text1"), ((10 : Nat), "text2")] ∧
    flushBatches 60 [((0 : Nat), "text1"), ((10 : Nat), "text2")] = [["text1", "text2"]] ∧
    batchText ["text1", "text2"] = "text1\n——\ntext2" :=
  have hch : List.Chain' (fun a b : Nat × String => a.1 ≤ b.1 ∧ b.1 < a.1 + 60)
      [((0 : Nat), "text1"), ((10 : Nat), "text2")] :=
    List.chain'_cons.mpr ⟨⟨by norm_num, by norm_num⟩, List.chain'_singleton _⟩
  ⟨by decide, hch,
    (single_flush 60 [((0 : Nat), "text1"), ((10 : Nat), "text2")]
      (by decide) hch).1,
    rfl⟩

/-- Embedding of takeOlderForSummary: everything except the most recent
recentCount exchanges (Nat subtraction plays the role of the max-with-0
clamp of the source). -/
def takeOlderForSummary (pairs : List Pair) (recentCount : Nat) : List Pair :=
  pairs.take (pairs.length - recentCount)

/-- Summary-related state carried across buildUserContext calls: the
stored digest for the user (empty string when none exists, exactly as
getLongSummary reports it) and how many times the text-generation
capability has been invoked for summarization. -/
structure SummaryStoreState where
  digest : String
  genCalls : Nat
  deriving DecidableEq

/-- Embedding of summarizePairs: with no older pairs it returns the empty
summary without touching the generation capability; otherwise it invokes
the capability once and yields genOut, the already-extracted response
content (empty string models an empty response and also a thrown failure,
which the caller catches and treats the same way: nothing stored).  The
second component counts the capability invocations made. -/
def summarizeCall (genOut : String) (older : List Pair) : String × Nat :=
  if older.isEmpty then ("", 0) else (genOut, 1)

/-- Embedding of the summarization branch of buildUserContext: when no
digest is stored and the user has more than 20 exchanges, summarize the
older exchanges and, only if the summary is nonempty, store it as the
digest; otherwise the state is untouched. -/
def buildUserContextStep (pairs : List Pair) (genOut : String)
    (s : SummaryStoreState) : SummaryStoreState :=
  if s.digest = "" ∧ 20 < pairs.length then
    let r := summarizeCall genOut (takeOlderForSummary pairs 20)
    { digest := if r.1 = "" then s.digest else r.1, genCalls := s.genCalls + r.2 }
  else s

/-- Iterated buildUserContext calls against the same stored pairs; the
i-th capability invocation returns genF i. -/
def runBuildContexts (pairs : List Pair) (genF : Nat → String) :
    Nat → SummaryStoreState → SummaryStoreState
  | 0, s => s
  | n + 1, s => runBuildContexts pairs genF n (buildUserContextStep pairs (genF s.genCalls) s)

theorem buildUserContextStep_of_digest (pairs : List Pair) (genOut : String)
    (s : SummaryStoreState) (h : s.digest ≠ "") :
    buildUserContextStep pairs genOut s = s := by
  rw [buildUserContextStep, if_neg]
  intro hc
  exact h hc.1

theorem runBuildContexts_of_digest (pairs : List Pair) (genF : Nat → String) :
    ∀ (n : Nat) (s : SummaryStoreState), s.digest ≠ "" →
      runBuildContexts pairs genF n s = s
  | 0, s, _ => rfl
  | n + 1, s, h => by
    rw [runBuildContexts, buildUserContextStep_of_digest pairs _ s h]
    exact runBuildContexts_of_digest pairs genF n s h

theorem takeOlderForSummary_not_isEmpty (pairs : List Pair) (h : 20 < pairs.length) :
    (takeOlderForSummary pairs 20).isEmpty = false := by
  rw [takeOlderForSummary, ← Bool.not_eq_true, List.isEmpty_iff_length_eq_zero,
    List.length_take]
  omega

/-- C9 counterexample: with more than 20 stored exchanges and a
generation capability that fails or returns empty on every invocation,
two buildUserContext calls invoke the summarization capability twice for
the same user, because a failed or empty summarization stores no digest
and the next call re-triggers it. -/
theorem summarize_retrigger_counterexample :
    (runBuildContexts (List.replicate 21 ⟨"u", "a"⟩) (fun _ => "") 2
        ⟨"", 0⟩).genCalls = 2 := by decide

/-- C9 (amended): once a stored digest exists, buildUserContext never
re-triggers summarization (the state is untouched); and when every
invocation of the generation capability returns a nonempty summary, the
capability is invoked at most once per user across any number of
buildUserContext calls starting from an empty store.  Without that
success assumption the invocation count can exceed one, as failed
summarizations store nothing and are retried. -/
theorem summarize_at_most_once (pairs : List Pair) (genF : Nat → String) (n : Nat)
    (hgen : ∀ i, genF i ≠ "") :
    (runBuildContexts pairs genF n ⟨"", 0⟩).genCalls ≤ 1 ∧
    ∀ (genOut : String) (s : SummaryStoreState), s.digest ≠ "" →
      buildUserContextStep pairs genOut s = s := by
  refine ⟨?_, fun genOut s h => buildUserContextStep_of_digest pairs genOut s h⟩
  by_cases hlen : 20 < pairs.length
  · cases n with
    | zero => exact Nat.zero_le 1
    | succ m =>
      rw [runBuildContexts]
      have hstep : buildUserContextStep pairs (genF 0) ⟨"", 0⟩ = ⟨genF 0, 1⟩ := by
        rw [buildUserContextStep, if_pos ⟨rfl, hlen⟩, summarizeCall,
          if_neg (by rw [takeOlderForSummary_not_isEmpty pairs hlen]; exact Bool.false_ne_true)]
        simp [if_neg (hgen 0)]
      rw [hstep, runBuildContexts_of_digest pairs genF m ⟨genF 0, 1⟩ (hgen 0)]
  · have hid : ∀ s : SummaryStoreState, buildUserContextStep pairs (genF s.genCalls) s = s := by
      intro s
      rw [buildUserContextStep, if_neg]
      intro hc
      exact hlen hc.2
    have hrun : ∀ (m : Nat) (s : SummaryStoreState), runBuildContexts pairs genF m s = s := by
      intro m
      induction m with
      | zero => intro s; rfl
      | succ k ih =>
        intro s
        rw [runBuildContexts, hid s]
        exact ih s
    rw [hrun n ⟨"", 0⟩]
    exact Nat.zero_le 1

/-- Witness for the amended C9: a generation capability that always
succeeds with a nonempty digest is invoked at most once over three
buildUserContext calls on a store of 21 exchanges. -/
theorem summarize_at_most_once_witness :
    (∀ i : Nat, (fun _ : Nat => "digest") i ≠ "") ∧
    ((runBuildContexts (List.replicate 21 ⟨"u", "a"⟩) (fun _ => "digest") 3
        ⟨"", 0⟩).genCalls ≤ 1 ∧
    ∀ (genOut : String) (s : SummaryStoreState), s.digest ≠ "" →
      buildUserContextStep (List.replicate 21 ⟨"u", "a"⟩) genOut s = s) :=
  ⟨fun i => by show ("digest" : String) ≠ ""; decide,
    summarize_at_most_once (List.replicate 21 ⟨"u", "a"⟩) (fun _ => "digest") 3
      (fun i => by show ("digest" : String) ≠ ""; decide)⟩

/-- Row of the users ledger sheet: userId, displayName, updated_at. -/
structure UserRow where
  userId : String
  displayName : String
  updatedAt : String
  deriving DecidableEq

/-- Embedding of the findIndex scan in upsertUser: position of the first
ledger row whose userId column matches. -/
def findUserIdx (userId : String) : List UserRow → Option Nat
  | [] => none
  | r :: rs =>
    if r.userId = userId then some 0
    else (findUserIdx userId rs).map (fun i => i + 1)

/-- Embedding of upsertUser: append a fresh row when the user is absent,
otherwise overwrite the displayName and updated_at cells of the first
matching row. -/
def upsertUser (users : List UserRow) (userId displayName now : String) : List UserRow :=
  match findUserIdx userId users with
  | none => users ++ [⟨userId, displayName, now⟩]
  | some i => users.set i ⟨userId, displayName, now⟩

/-- The display name that processBatchedMessages passes to upsertUser:
the profile's displayName when the fetch succeeds and has one, and the
empty string when the field is absent or the fetch throws (the catch
block leaves the initial empty string in place). -/
def profileDisplayName (profile : Except Unit (Option String)) : String :=
  match profile with
  | Except.error _ => ""
  | Except.ok d => d.getD ""

/-- The ledger write performed by every batch flush, before any draft is
generated: upsert the user's row with whatever display name the profile
fetch produced. -/
def flushUpsertLedger (users : List UserRow) (userId : String)
    (profile : Except Unit (Option String)) (now : String) : List UserRow :=
  upsertUser users userId (profileDisplayName profile) now

theorem findUserIdx_lt_length (userId : String) :
    ∀ (users : List UserRow) (i : Nat), findUserIdx userId users = some i →
      i < users.length
  | [], i, h => by simp [findUserIdx] at h
  | r :: rs, i, h => by
    by_cases hr : r.userId = userId
    · rw [findUserIdx, if_pos hr] at h
      obtain rfl : (0 : Nat) = i := Option.some.injEq .. ▸ h
      simp
    · rw [findUserIdx, if_neg hr] at h
      cases hfr : findUserIdx userId rs with
      | none => rw [hfr] at h; simp at h
      | some j =>
        rw [hfr] at h
        have hj : j + 1 = i := by simpa using h
        subst hj
        have := findUserIdx_lt_length userId rs j hfr
        simp only [List.length_cons]
        omega

theorem get?_set_self {α : Type} : ∀ (l : List α) (i : Nat) (v : α), i < l.length →
    (l.set i v).get? i = some v
  | [], i, v, h => by simp at h
  | x :: xs, 0, v, _ => rfl
  | x :: xs, i + 1, v, h => by
    simp only [List.set_cons_succ, List.get?_cons_succ]
    exact get?_set_self xs i v (by simpa using h)

/-- C10: every batch flush upserts the user's ledger row with whatever
display name the profile fetch produced; in particular, when the profile
fetch fails for a user whose stored row has a nonempty displayName, that
row is overwritten with the empty display name. -/
theorem flush_overwrites_displayName (users : List UserRow) (uid now : String)
    (profile : Except Unit (Option String)) (i : Nat) (r : UserRow)
    (hfind : findUserIdx uid users = some i)
    (hget : users.get? i = some r)
    (hname : r.displayName ≠ "") :
    (flushUpsertLedger users uid profile now).get? i =
      some ⟨uid, profileDisplayName profile, now⟩ ∧
    (flushUpsertLedger users uid (Except.error ()) now).get? i = some ⟨uid, "", now⟩ := by
  have hlt := findUserIdx_lt_length uid users i hfind
  constructor
  · rw [flushUpsertLedger, upsertUser, hfind]
    exact get?_set_self users i _ hlt
  · rw [flushUpsertLedger, upsertUser, hfind]
    exact get?_set_self users i _ hlt

/-- Witness for C10: a ledger holding Alice for u1, a failing profile
fetch, and the flush leaving an empty display name behind. -/
theorem flush_overwrites_displayName_witness :
    findUserIdx "u1" [⟨"u1", "Alice", "t0"⟩] = some 0 ∧
    ([⟨"u1", "Alice", "t0"⟩] : List UserRow).get? 0 = some ⟨"u1", "Alice", "t0"⟩ ∧
    ("Alice" : String) ≠ "" ∧
    ((flushUpsertLedger [⟨"u1", "Alice", "t0"⟩] "u1" (Except.error ()) "t1").get? 0 =
        some ⟨"u1", profileDisplayName (Except.error ()), "t1"⟩ ∧
    (flushUpsertLedger [⟨"u1", "Alice", "t0"⟩] "u1" (Except.error ()) "t1").get? 0 =
      some ⟨"u1", "", "t1"⟩) :=
  ⟨by decide, by decide, by decide,
    flush_overwrites_displayName [⟨"u1", "Alice", "t0"⟩] "u1" "t1"
      (Except.error ()) 0 ⟨"u1", "Alice", "t0"⟩ (by decide) (by decide) (by decide)⟩

end LineBot
